import Mathlib

/-!
Verification of the telegram-mcp persistence layer.

Shallow embedding of the cache store (`src/core/cache/index.ts`), the log
store (`src/core/logging/index.ts`), and the account registry
(`src/accounts/AccountManager.ts`) of the telegram-mcp repository, together
with proofs about their behaviour.

The SQLite database tables are modelled as Lean lists of rows; each store
method becomes a pure function from the old state (plus the values the
JavaScript runtime supplies: `Date.now()`, fresh UUIDs) to the new state and
result.  JSON serialization is modelled as the stored text itself: the
`value` fields hold the serialized payload, exactly as the `TEXT` columns do.
JavaScript truthiness tests that appear in the source (`ttlMs ?`,
`row.expires_at &&`, `row.user_id ?`, `x || null`) are modelled explicitly.
-/

set_option linter.unusedVariables false

namespace TelegramMcp

/-! ## Cache store (`src/core/cache/index.ts`)

A row of the `cache` table:
`cache(key TEXT PRIMARY KEY, value TEXT NOT NULL, expires_at INTEGER, created_at INTEGER NOT NULL)`.
-/

structure CacheRow where
  key : String
  value : String
  expiresAt : Option Int
  createdAt : Int
deriving DecidableEq, Repr

/-- The `CacheManager` state: the `cache` table plus the process-local
hit/miss counters. -/
structure CacheState where
  entries : List CacheRow
  hitCount : Nat
  missCount : Nat
deriving DecidableEq, Repr

/-- The expiry test of `CacheManager.get`:
`row.expires_at && row.expires_at < Date.now()`.  JavaScript truthiness makes
a stored `expires_at` of `0` (and `NULL`) fail the first conjunct. -/
def jsExpired (now : Int) (expiresAt : Option Int) : Bool :=
  match expiresAt with
  | none => false
  | some e => e != 0 && decide (e < now)

/-- The SQL expiry test used by `stats` and `cleanup`:
`expires_at IS NOT NULL AND expires_at < ?`. -/
def sqlExpired (now : Int) (expiresAt : Option Int) : Bool :=
  match expiresAt with
  | none => false
  | some e => decide (e < now)

namespace CacheManager

/-- Method `set(key, value, ttlMs?)`: computes
`expiresAt = ttlMs ? now + ttlMs : null` (so a `ttlMs` of `0` is falsy and
yields no expiry) and issues
`INSERT OR REPLACE INTO cache (key, value, expires_at, created_at)`:
any existing row with the same key is replaced. -/
def set (key value : String) (ttlMs : Option Int) (now : Int) (s : CacheState) : CacheState :=
  let expiresAt : Option Int :=
    match ttlMs with
    | some t => if t != 0 then some (now + t) else none
    | none => none
  { s with entries :=
      s.entries.filter (fun r => r.key != key) ++
        [{ key := key, value := value, expiresAt := expiresAt, createdAt := now }] }

/-- Method `delete(key)`: `DELETE FROM cache WHERE key = ?`, returning
`result.changes > 0`. -/
def delete (key : String) (s : CacheState) : Bool × CacheState :=
  let remaining := s.entries.filter (fun r => r.key != key)
  (decide (remaining.length < s.entries.length), { s with entries := remaining })

/-- Method `get(key)`: looks the row up; a missing row is a miss; a row whose
`expires_at` is truthy and in the past is deleted and counted as a miss;
otherwise the stored value is returned and the hit counter incremented. -/
def get (key : String) (now : Int) (s : CacheState) : Option String × CacheState :=
  match s.entries.find? (fun r => r.key == key) with
  | none => (none, { s with missCount := s.missCount + 1 })
  | some row =>
    if jsExpired now row.expiresAt then
      let s1 := (delete key s).2
      (none, { s1 with missCount := s1.missCount + 1 })
    else
      (some row.value, { s with hitCount := s.hitCount + 1 })

/-- Method `clear()`: `DELETE FROM cache`. -/
def clear (s : CacheState) : CacheState :=
  { s with entries := [] }

/-- The result record of `stats()`. -/
structure CacheStats where
  totalEntries : Nat
  expiredEntries : Nat
  hitCount : Nat
  missCount : Nat
  size : Nat
deriving DecidableEq, Repr

/-- Method `stats()`: total row count, count of rows with a non-null past
`expires_at`, the process-local counters, and the summed value lengths. -/
def stats (now : Int) (s : CacheState) : CacheStats :=
  { totalEntries := s.entries.length
    expiredEntries := (s.entries.filter (fun r => sqlExpired now r.expiresAt)).length
    hitCount := s.hitCount
    missCount := s.missCount
    size := (s.entries.map (fun r => r.value.length)).sum }

/-- Method `cleanup()`: `DELETE FROM cache WHERE expires_at IS NOT NULL AND expires_at < ?`,
returning the number of removed rows. -/
def cleanup (now : Int) (s : CacheState) : Nat × CacheState :=
  let remaining := s.entries.filter (fun r => !(sqlExpired now r.expiresAt))
  (s.entries.length - remaining.length, { s with entries := remaining })

end CacheManager

/-! ### Helper lemmas about `set` and `get` -/

theorem filter_ne_key_append_single (k : String) (row : CacheRow) (l : List CacheRow)
    (hk : row.key = k) :
    ((l.filter (fun r => r.key != k) ++ [row]).filter (fun r => r.key != k))
      = l.filter (fun r => r.key != k) := by
  rw [List.filter_append, List.filter_filter]
  simp [hk]

theorem find?_key_filter_append (k : String) (row : CacheRow) (l : List CacheRow)
    (hk : row.key = k) :
    (l.filter (fun r => r.key != k) ++ [row]).find? (fun r => r.key == k) = some row := by
  induction l with
  | nil => simp [List.find?, hk]
  | cons x xs ih =>
    by_cases hx : x.key = k
    · simpa [List.filter_cons, hx] using ih
    · simpa [List.filter_cons, hx, List.find?_cons, hx] using ih

/-- After `set k v ttl now s`, the unique row stored under `k` is the freshly
written one. -/
theorem set_find? (k v : String) (ttlMs : Option Int) (now : Int) (s : CacheState) :
    (CacheManager.set k v ttlMs now s).entries.find? (fun r => r.key == k)
      = some { key := k, value := v,
               expiresAt := match ttlMs with
                 | some t => if t != 0 then some (now + t) else none
                 | none => none,
               createdAt := now } := by
  unfold CacheManager.set
  exact find?_key_filter_append k _ s.entries rfl

/-! ### C7: overwriting `set` -/

/-- C7: For every key `k` and values `v1`, `v2`, doing `set(k, v1)` then
`set(k, v2)` (no TTL, as in the property stated by the spec) leaves exactly one entry for
`k`; `get(k)` afterwards returns `v2` and increments the hit counter; and
`stats().totalEntries` is unchanged across the second `set`: the second `set`
replaces value, expiry and `createdAt` instead of adding a row. -/
theorem set_overwrite_spec (k v1 v2 : String) (now1 now2 now3 now4 : Int) (s : CacheState) :
    ((CacheManager.set k v2 none now2 (CacheManager.set k v1 none now1 s)).entries.filter
        (fun r => r.key == k)).length = 1
    ∧ (CacheManager.get k now3
        (CacheManager.set k v2 none now2 (CacheManager.set k v1 none now1 s))).1 = some v2
    ∧ (CacheManager.stats now4
          (CacheManager.set k v2 none now2 (CacheManager.set k v1 none now1 s))).totalEntries
      = (CacheManager.stats now4 (CacheManager.set k v1 none now1 s)).totalEntries := by
  have hentries :
      (CacheManager.set k v2 none now2 (CacheManager.set k v1 none now1 s)).entries
        = s.entries.filter (fun r => r.key != k) ++
            [{ key := k, value := v2, expiresAt := none, createdAt := now2 }] := by
    show (CacheManager.set k v1 none now1 s).entries.filter (fun r => r.key != k) ++ _ = _
    rw [show (CacheManager.set k v1 none now1 s).entries
          = s.entries.filter (fun r => r.key != k) ++
              [{ key := k, value := v1, expiresAt := none, createdAt := now1 }] from rfl]
    rw [filter_ne_key_append_single k _ s.entries rfl]
  refine ⟨?_, ?_, ?_⟩
  · rw [hentries, List.filter_append, List.filter_filter]
    simp
  · unfold CacheManager.get
    rw [set_find?]
    simp [jsExpired]
  · unfold CacheManager.stats
    simp only [hentries]
    simp [CacheManager.set]

/-! ### C10: `ttlMs = 0` means "no TTL" -/

/-- C10: the call `set(key, value, 0)` stores an entry with **no** expiry
(`expires_at` is `NULL`, because `0` is falsy in `ttlMs ? now + ttlMs : null`),
so the entry is retrievable by `get` at every later (indeed, every) time
`now'`: `get` returns the value, increments the hit counter, and leaves the
entries untouched. -/
theorem set_ttl_zero_permanent (k v : String) (now now' : Int) (s : CacheState) :
    ((CacheManager.set k v (some 0) now s).entries.find? (fun r => r.key == k)).map
        (fun r => r.expiresAt) = some none
    ∧ (CacheManager.get k now' (CacheManager.set k v (some 0) now s)).1 = some v
    ∧ (CacheManager.get k now' (CacheManager.set k v (some 0) now s)).2.hitCount
        = s.hitCount + 1
    ∧ (CacheManager.get k now' (CacheManager.set k v (some 0) now s)).2.entries
        = (CacheManager.set k v (some 0) now s).entries := by
  refine ⟨?_, ?_, ?_, ?_⟩
  · rw [set_find?]
    rfl
  · unfold CacheManager.get
    rw [set_find?]
    simp [jsExpired]
  · unfold CacheManager.get
    rw [set_find?]
    simp [jsExpired, CacheManager.set]
  · unfold CacheManager.get
    rw [set_find?]
    simp [jsExpired]

/-! ### C2: `get` semantics

Bridge lemmas between declarative descriptions of the table and the `find?`
call issued by `get`. -/

theorem find?_key_eq_none (k : String) (l : List CacheRow)
    (h : ∀ r ∈ l, r.key ≠ k) :
    l.find? (fun x => x.key == k) = none := by
  rw [List.find?_eq_none]
  intro x hx
  simpa using h x hx

theorem find?_key_of_mem (k : String) (r : CacheRow) (l : List CacheRow)
    (hnd : (l.map CacheRow.key).Nodup) (hr : r ∈ l) (hk : r.key = k) :
    l.find? (fun x => x.key == k) = some r := by
  induction l with
  | nil => cases hr
  | cons x xs ih =>
    rw [List.map_cons, List.nodup_cons] at hnd
    rcases List.mem_cons.mp hr with h | h
    · subst h
      exact List.find?_cons_of_pos _ (by simpa using hk)
    · have hx : x.key ≠ k := by
        intro hxk
        exact hnd.1 (by
          have : CacheRow.key r ∈ xs.map CacheRow.key := List.mem_map_of_mem _ h
          rwa [hk, ← hxk] at this)
      rw [List.find?_cons_of_neg _ (by simpa using hx)]
      exact ih hnd.2 h

/-- Unfolding equation for `get` when the lookup finds a row. -/
theorem get_eq_of_find?_some (k : String) (now : Int) (s : CacheState) (r : CacheRow)
    (hf : s.entries.find? (fun x => x.key == k) = some r) :
    CacheManager.get k now s =
      if jsExpired now r.expiresAt then
        (none, { s with entries := s.entries.filter (fun x => x.key != k),
                        missCount := s.missCount + 1 })
      else (some r.value, { s with hitCount := s.hitCount + 1 }) := by
  unfold CacheManager.get
  rw [hf]
  rfl

/-- Unfolding equation for `get` when the lookup finds nothing. -/
theorem get_eq_of_find?_none (k : String) (now : Int) (s : CacheState)
    (hf : s.entries.find? (fun x => x.key == k) = none) :
    CacheManager.get k now s = (none, { s with missCount := s.missCount + 1 }) := by
  unfold CacheManager.get
  rw [hf]

def c2CounterState : CacheState :=
  { entries := [{ key := "k", value := "v", expiresAt := some 0, createdAt := 0 }],
    hitCount := 0, missCount := 0 }

/-- C2 counterexample: a stored row for key `"k"` whose `expiresAt` is set
to `0`, read at time `1`: the expiry `0` is set and strictly earlier than the
current time, so the claim demands a miss that deletes the row; but
JavaScript truthiness (`row.expires_at && ...`) skips the expiry check for
`0`, and `get` returns the value, increments the **hit** counter, and leaves
the row in place. -/
theorem get_zero_expiry_is_hit :
    CacheManager.get "k" 1 c2CounterState
      = (some "v", { c2CounterState with hitCount := 1 }) := by
  rfl

/-- C2 amended: for every key: a missing row increments the miss counter
and returns absent; a found row whose `expiresAt` is set to a **nonzero**
value strictly earlier than the current time is deleted, the miss counter is
incremented and absent is returned; otherwise — no expiry, expiry not in the
past, or expiry stored as `0` (which the truthiness test in the code treats as "no
expiry") — the hit counter is incremented and the stored value returned.
(The hypothesis is the `cache.key` PRIMARY KEY invariant.) -/
theorem get_spec (k : String) (now : Int) (s : CacheState)
    (hnd : (s.entries.map CacheRow.key).Nodup) :
    ((∀ r ∈ s.entries, r.key ≠ k) →
        CacheManager.get k now s = (none, { s with missCount := s.missCount + 1 }))
    ∧ (∀ r ∈ s.entries, r.key = k → ∀ e, r.expiresAt = some e → e ≠ 0 → e < now →
        CacheManager.get k now s =
          (none, { s with entries := s.entries.filter (fun x => x.key != k),
                          missCount := s.missCount + 1 }))
    ∧ (∀ r ∈ s.entries, r.key = k →
        (r.expiresAt = none ∨ r.expiresAt = some 0 ∨ (∃ e, r.expiresAt = some e ∧ now ≤ e)) →
        CacheManager.get k now s = (some r.value, { s with hitCount := s.hitCount + 1 })) := by
  refine ⟨?_, ?_, ?_⟩
  · intro h
    exact get_eq_of_find?_none k now s (find?_key_eq_none k s.entries h)
  · intro r hr hk e he hne hlt
    rw [get_eq_of_find?_some k now s r (find?_key_of_mem k r s.entries hnd hr hk)]
    have hexp : jsExpired now r.expiresAt = true := by
      simp [jsExpired, he, hne, hlt]
    rw [if_pos hexp]
  · intro r hr hk hcase
    rw [get_eq_of_find?_some k now s r (find?_key_of_mem k r s.entries hnd hr hk)]
    have hexp : jsExpired now r.expiresAt = false := by
      rcases hcase with h | h | ⟨e, he, hge⟩
      · simp [jsExpired, h]
      · simp [jsExpired, h]
      · simp [jsExpired, he, not_lt.mpr hge]
    rw [if_neg (by simp [hexp])]

def c2WitnessState : CacheState :=
  { entries := [{ key := "k", value := "v", expiresAt := some 3, createdAt := 0 }],
    hitCount := 0, missCount := 0 }

theorem get_spec_witness :
    CacheManager.get "k" 5 c2WitnessState
      = (none, { c2WitnessState with
                 entries := c2WitnessState.entries.filter (fun x => x.key != "k"),
                 missCount := c2WitnessState.missCount + 1 }) :=
  (get_spec "k" 5 c2WitnessState (by decide)).2.1
    { key := "k", value := "v", expiresAt := some 3, createdAt := 0 }
    (by decide) rfl 3 rfl (by decide) (by decide)

/-! ## SQLite `LIKE` matching and `clearByPrefix`

`clearByPrefix(prefix)` runs `DELETE FROM cache WHERE key LIKE ?` with the
pattern `` `${prefix}%` `` and no `ESCAPE` clause.  The default `LIKE`
semantics of SQLite: `%` matches any character sequence, `_` matches any single
character, and comparison is case-insensitive for the ASCII range. -/

/-- Case folding of the default SQLite `LIKE`: ASCII upper-case letters compare
equal to their lower-case forms. -/
def asciiLower (c : Char) : Char :=
  if 'A' ≤ c ∧ c ≤ 'Z' then Char.ofNat (c.toNat + 32) else c

/-- Tests whether `f` accepts some suffix of the list (including the list itself and
the empty suffix)?  Used to interpret the `%` wildcard. -/
def anySuffix (f : List Char → Bool) : List Char → Bool
  | [] => f []
  | d :: t => f (d :: t) || anySuffix f t

/-- SQLite `LIKE` pattern matching (no `ESCAPE` clause): `%` matches any
sequence of characters, `_` matches exactly one character, and every other
pattern character matches ASCII-case-insensitively. -/
def likeMatch : List Char → List Char → Bool
  | [], s => s.isEmpty
  | c :: ps, s =>
    if c = '%' then anySuffix (fun t => likeMatch ps t) s
    else
      match s with
      | [] => false
      | d :: t => ((c == '_') || (asciiLower c == asciiLower d)) && likeMatch ps t

/-- Case-sensitive literal-prefix test ("starts with `p` as a literal
character sequence"), the relation the claim speaks about. -/
def litPrefix : List Char → List Char → Bool
  | [], _ => true
  | _ :: _, [] => false
  | c :: cs, d :: ds => (c == d) && litPrefix cs ds

/-- ASCII-case-insensitive literal-prefix test. -/
def ciPrefix : List Char → List Char → Bool
  | [], _ => true
  | _ :: _, [] => false
  | c :: cs, d :: ds => (asciiLower c == asciiLower d) && ciPrefix cs ds

/-- Tests that `p` contains neither of the `LIKE` wildcards `%` and `_`. -/
def noLikeMeta (p : List Char) : Bool :=
  p.all (fun c => (c != '%') && (c != '_'))

namespace CacheManager

/-- Method `clearByPrefix(prefix)`:
`DELETE FROM cache WHERE key LIKE ?` with pattern `` `${prefix}%` ``. -/
def clearByPrefix (pfx : String) (s : CacheState) : CacheState :=
  { s with entries := s.entries.filter (fun r => !(likeMatch (pfx ++ "%").data r.key.data)) }

end CacheManager

/-! ### `LIKE`-matching lemmas -/

theorem anySuffix_true_of_nil (f : List Char → Bool) (hf : f [] = true) :
    ∀ s, anySuffix f s = true := by
  intro s
  induction s with
  | nil => simpa [anySuffix] using hf
  | cons d t ih => simp [anySuffix, ih]

/-- A metacharacter-free pattern followed by a single `%` matches exactly the
strings having the pattern as an ASCII-case-insensitive literal prefix. -/
theorem likeMatch_noMeta_pct (p : List Char) (hp : ∀ c ∈ p, c ≠ '%' ∧ c ≠ '_') :
    ∀ s, likeMatch (p ++ ['%']) s = ciPrefix p s := by
  induction p with
  | nil =>
    intro s
    have h1 : likeMatch (([] : List Char) ++ ['%']) s
        = anySuffix (fun t => likeMatch [] t) s := by
      simp [likeMatch]
    rw [h1, anySuffix_true_of_nil (fun t => likeMatch [] t) (by simp [likeMatch])]
    simp [ciPrefix]
  | cons c cs ih =>
    intro s
    have hc := hp c (List.mem_cons_self c cs)
    have hcs : ∀ x ∈ cs, x ≠ '%' ∧ x ≠ '_' := fun x hx => hp x (List.mem_cons_of_mem c hx)
    cases s with
    | nil =>
      simp [likeMatch, ciPrefix, hc.1]
    | cons d t =>
      have h1 : likeMatch ((c :: cs) ++ ['%']) (d :: t)
          = (((c == '_') || (asciiLower c == asciiLower d)) && likeMatch (cs ++ ['%']) t) := by
        show likeMatch (c :: (cs ++ ['%'])) (d :: t) = _
        simp only [likeMatch]
        rw [if_neg hc.1]
      rw [h1, ih hcs t]
      have h2 : (c == '_') = false := by simpa using hc.2
      simp [ciPrefix, h2]

/-! ### C6: `clearByPrefix` and wildcard leakage -/

def c6CounterState : CacheState :=
  { entries := [{ key := "ab", value := "x", expiresAt := none, createdAt := 0 }],
    hitCount := 0, missCount := 0 }

/-- C6 counterexample: with the single key `"ab"` stored,
`clearByPrefix("a_")` deletes the entry even though `"ab"` does **not** start
with the literal character sequence `"a_"`: the unescaped `_` in the
caller-supplied prefix acts as a `LIKE` single-character wildcard, so the
deletion is not an exact literal prefix match. -/
theorem clearByPrefix_underscore_leaks :
    (CacheManager.clearByPrefix "a_" c6CounterState).entries = []
    ∧ litPrefix "a_".data "ab".data = false := by
  refine ⟨?_, by decide⟩
  rfl

def c6ExampleState : CacheState :=
  { entries := [{ key := "user:1", value := "u1", expiresAt := none, createdAt := 0 },
                { key := "user:2", value := "u2", expiresAt := none, createdAt := 0 },
                { key := "config:1", value := "c", expiresAt := none, createdAt := 0 }],
    hitCount := 0, missCount := 0 }

/-- C6 amended: `clearByPrefix(prefix)` deletes exactly the entries
whose key matches the `LIKE` pattern `prefix` + `%`; when the caller-supplied
prefix contains neither of the pattern metacharacters `%` and `_`, this is
exactly the set of keys having `prefix` as an ASCII-case-insensitive literal
prefix (SQLite `LIKE` is ASCII-case-insensitive by default), and every other
entry is left unchanged.  In particular, with keys `user:1`, `user:2`,
`config:1`, `clearByPrefix("user:")` removes exactly the first two. -/
theorem clearByPrefix_spec (pfx : String) (s : CacheState)
    (hm : noLikeMeta pfx.data = true) :
    (CacheManager.clearByPrefix pfx s).entries
      = s.entries.filter (fun r => !(ciPrefix pfx.data r.key.data))
    ∧ (CacheManager.clearByPrefix pfx s).hitCount = s.hitCount
    ∧ (CacheManager.clearByPrefix pfx s).missCount = s.missCount
    ∧ (CacheManager.clearByPrefix "user:" c6ExampleState).entries
      = [{ key := "config:1", value := "c", expiresAt := none, createdAt := 0 }] := by
  have hp : ∀ c ∈ pfx.data, c ≠ '%' ∧ c ≠ '_' := by
    intro c hc
    have := (List.all_eq_true.mp hm) c hc
    constructor
    · simpa using (Bool.and_elim_left this)
    · simpa using (Bool.and_elim_right this)
  refine ⟨?_, rfl, rfl, by rfl⟩
  show List.filter (fun r => !(likeMatch (pfx ++ "%").data r.key.data)) s.entries
      = List.filter (fun r => !(ciPrefix pfx.data r.key.data)) s.entries
  have hdata : (pfx ++ "%").data = pfx.data ++ ['%'] := by
    simp
  apply List.filter_congr
  intro r hr
  rw [hdata, likeMatch_noMeta_pct pfx.data hp r.key.data]

theorem clearByPrefix_spec_witness :
    (CacheManager.clearByPrefix "user:" c6ExampleState).entries
      = c6ExampleState.entries.filter (fun r => !(ciPrefix "user:".data r.key.data)) :=
  (clearByPrefix_spec "user:" c6ExampleState (by decide)).1

/-! ## Log store (`src/core/logging/index.ts`)

A row of the `logs` table:
`logs(id PK, timestamp, level, tool, action, arguments, result, error,
duration, session_id, project_id, server_id, metadata)` — note there is no
`message` column. -/

inductive LogLevel
  | debug
  | info
  | warn
  | error
deriving DecidableEq, Repr

/-- The `LOG_LEVELS` priority table: debug 0, info 1, warn 2, error 3. -/
def LOG_LEVELS : LogLevel → Nat
  | .debug => 0
  | .info => 1
  | .warn => 2
  | .error => 3

/-- The optional structured-context argument of `log`.  The `arguments`,
`result` and `metadata` objects are modelled by their serialized text (they
are `JSON.stringify`-ed before the insert; a present object is always
truthy). -/
structure LogContext where
  tool : Option String := none
  action : Option String := none
  arguments : Option String := none
  result : Option String := none
  error : Option String := none
  duration : Option Int := none
  sessionId : Option String := none
  projectId : Option String := none
  serverId : Option String := none
  metadata : Option String := none
deriving DecidableEq, Repr

structure LogRow where
  id : String
  timestamp : Int
  level : LogLevel
  tool : Option String
  action : Option String
  arguments : Option String
  result : Option String
  error : Option String
  duration : Option Int
  sessionId : Option String
  projectId : Option String
  serverId : Option String
  metadata : Option String
deriving DecidableEq, Repr

structure LogState where
  rows : List LogRow
deriving DecidableEq, Repr

/-- Coalescing `x || null` on an optional string: `undefined` and `""` become `NULL`. -/
def jsOrNullStr : Option String → Option String
  | none => none
  | some t => if t = "" then none else some t

/-- Coalescing `x || null` on an optional number: `undefined` and `0` become `NULL`. -/
def jsOrNullInt : Option Int → Option Int
  | none => none
  | some n => if n = 0 then none else some n

namespace Logger

/-- The row bound by the `INSERT INTO logs (...) VALUES (...)` statement of
`Logger.log`: the fresh uuid, `Date.now()`, the level, and the truthiness
coalesced context fields (`entry.tool || null`, `entry.duration || null`,
`context?.serverId || this.serverId`, ...).  The `message` argument of `log`
does not appear: the statement has no message column. -/
def mkEntryRow (serverId : String) (level : LogLevel) (ctx : LogContext)
    (freshId : String) (now : Int) : LogRow :=
  { id := freshId
    timestamp := now
    level := level
    tool := jsOrNullStr ctx.tool
    action := jsOrNullStr ctx.action
    arguments := ctx.arguments
    result := ctx.result
    error := jsOrNullStr ctx.error
    duration := jsOrNullInt ctx.duration
    sessionId := jsOrNullStr ctx.sessionId
    projectId := jsOrNullStr ctx.projectId
    serverId := jsOrNullStr (some (match ctx.serverId with
      | some sid => if sid = "" then serverId else sid
      | none => serverId))
    metadata := ctx.metadata }

/-- Method `log(level, message, context)`: returns without writing when
`LOG_LEVELS[level] < LOG_LEVELS[this.minLevel]`; otherwise inserts exactly
one row built from a fresh id, the current time and the context — the
`message` parameter is consumed but not persisted. -/
def log (minLevel : LogLevel) (serverId : String) (level : LogLevel)
    (message : String) (ctx : LogContext) (freshId : String) (now : Int)
    (s : LogState) : LogState :=
  if LOG_LEVELS level < LOG_LEVELS minLevel then s
  else { rows := s.rows ++ [mkEntryRow serverId level ctx freshId now] }

/-- Method `clear()`: `DELETE FROM logs`. -/
def clear (s : LogState) : LogState := { rows := [] }

end Logger

/-! ### C4: level gating -/

/-- C4: `log(level, message, context)` writes nothing at all when
`priority(level) < priority(minLevel)` (priorities debug 0 < info 1 < warn 2
< error 3, `minLevel` fixed at construction), and otherwise appends exactly
one new row carrying the fresh id and the current timestamp.  Consequently a
logger constructed with `minLevel = warn` receiving one `debug`, one `info`
and one `warn` call persists exactly one row, a `warn` row. -/
theorem log_level_gating (minLevel level : LogLevel) (serverId m freshId : String)
    (ctx : LogContext) (now : Int) (s : LogState) :
    (LOG_LEVELS level < LOG_LEVELS minLevel →
        Logger.log minLevel serverId level m ctx freshId now s = s)
    ∧ (LOG_LEVELS minLevel ≤ LOG_LEVELS level →
        (Logger.log minLevel serverId level m ctx freshId now s).rows.length
            = s.rows.length + 1
        ∧ ∃ r, (Logger.log minLevel serverId level m ctx freshId now s).rows
              = s.rows ++ [r]
            ∧ r.id = freshId ∧ r.timestamp = now ∧ r.level = level)
    ∧ ((Logger.log LogLevel.warn "srv" LogLevel.warn "w" {} "id3" 3
          (Logger.log LogLevel.warn "srv" LogLevel.info "i" {} "id2" 2
            (Logger.log LogLevel.warn "srv" LogLevel.debug "d" {} "id1" 1
              { rows := [] }))).rows.map LogRow.level = [LogLevel.warn]) := by
  refine ⟨?_, ?_, rfl⟩
  · intro hlt
    unfold Logger.log
    rw [if_pos hlt]
  · intro hge
    have hlt : ¬ LOG_LEVELS level < LOG_LEVELS minLevel := not_lt.mpr hge
    have hrows : (Logger.log minLevel serverId level m ctx freshId now s).rows
        = s.rows ++ [Logger.mkEntryRow serverId level ctx freshId now] := by
      unfold Logger.log
      rw [if_neg hlt]
    refine ⟨by rw [hrows]; simp, Logger.mkEntryRow serverId level ctx freshId now,
      hrows, rfl, rfl, rfl⟩

theorem log_level_gating_witness :
    Logger.log LogLevel.warn "srv" LogLevel.debug "dropped" {} "id0" 0 { rows := [] }
        = { rows := [] }
    ∧ (Logger.log LogLevel.warn "srv" LogLevel.error "kept" {} "id9" 9
        { rows := [] }).rows.length = ([] : List LogRow).length + 1 :=
  ⟨(log_level_gating LogLevel.warn LogLevel.debug "srv" "dropped" "id0" {} 0
      { rows := [] }).1 (by decide),
   ((log_level_gating LogLevel.warn LogLevel.error "srv" "kept" "id9" {} 9
      { rows := [] }).2.1 (by decide)).1⟩

/-! ### C8: the message is not persisted -/

/-- C8: for a level at or above `minLevel`, two `log` calls differing only
in the message produce identical states (the message is accepted but never
stored), the write appends a single row stamped with the supplied fresh id
and timestamp, and rows produced at different generated ids/timestamps are
identical in every other field. -/
theorem log_message_not_persisted (minLevel level : LogLevel)
    (serverId m1 m2 freshId freshId' : String) (ctx : LogContext) (now now' : Int)
    (s : LogState) (h : LOG_LEVELS minLevel ≤ LOG_LEVELS level) :
    Logger.log minLevel serverId level m1 ctx freshId now s
      = Logger.log minLevel serverId level m2 ctx freshId now s
    ∧ (Logger.log minLevel serverId level m1 ctx freshId now s).rows
      = s.rows ++ [Logger.mkEntryRow serverId level ctx freshId now]
    ∧ (Logger.mkEntryRow serverId level ctx freshId now).id = freshId
    ∧ (Logger.mkEntryRow serverId level ctx freshId now).timestamp = now
    ∧ Logger.mkEntryRow serverId level ctx freshId' now'
      = { Logger.mkEntryRow serverId level ctx freshId now with
          id := freshId', timestamp := now' } := by
  have hlt : ¬ LOG_LEVELS level < LOG_LEVELS minLevel := not_lt.mpr h
  refine ⟨rfl, ?_, rfl, rfl, rfl⟩
  unfold Logger.log
  rw [if_neg hlt]

theorem log_message_not_persisted_witness :
    Logger.log LogLevel.info "srv" LogLevel.warn "first message" {} "id1" 7 { rows := [] }
      = Logger.log LogLevel.info "srv" LogLevel.warn "second message" {} "id1" 7
          { rows := [] } :=
  (log_message_not_persisted LogLevel.info LogLevel.warn "srv" "first message"
    "second message" "id1" "id2" {} 7 8 { rows := [] } (by decide)).1

/-! ### C3: `trim` retains the newest rows -/

/-- Comparison modelling `ORDER BY timestamp DESC`: newer or equally new
first. -/
def tsDescRel (a b : LogRow) : Prop := b.timestamp ≤ a.timestamp

instance : DecidableRel tsDescRel := fun a b => Int.decLe b.timestamp a.timestamp

instance : IsTotal LogRow tsDescRel := ⟨fun a b => le_total b.timestamp a.timestamp⟩

instance : IsTrans LogRow tsDescRel := ⟨fun a b c h1 h2 => le_trans h2 h1⟩

/-- Method `trim(maxEntries)`:
`DELETE FROM logs WHERE id NOT IN (SELECT id FROM logs ORDER BY timestamp DESC LIMIT ?)`,
returning `result.changes`.  The inner SELECT is modelled as taking
`maxEntries` rows off a timestamp-descending sort of the table. -/
def Logger.trim (maxEntries : Nat) (s : LogState) : Nat × LogState :=
  let keepIds := ((List.insertionSort tsDescRel s.rows).take maxEntries).map LogRow.id
  let remaining := s.rows.filter (fun r => keepIds.contains r.id)
  (s.rows.length - remaining.length, { rows := remaining })

theorem contains_iff_mem_str (ids : List String) (x : String) :
    ids.contains x = true ↔ x ∈ ids := by
  simp [List.contains_iff_exists_mem_beq]

/-- C3: for every non-negative `maxEntries` and every `logs` state whose
ids satisfy the PRIMARY KEY invariant, `trim(maxEntries)` keeps exactly
`min maxEntries n` of the `n` stored rows — rows of the original table, each
kept row at least as recent by timestamp as every deleted row (so for
distinct timestamps, exactly the `maxEntries` most recent) — returns the
number of deleted rows `n - min maxEntries n`, and deletes every row when
`maxEntries` is `0`. -/
theorem trim_spec (maxEntries : Nat) (s : LogState)
    (hnd : (s.rows.map LogRow.id).Nodup) :
    (Logger.trim maxEntries s).1 = s.rows.length - min maxEntries s.rows.length
    ∧ (Logger.trim maxEntries s).2.rows.length = min maxEntries s.rows.length
    ∧ (∀ r ∈ (Logger.trim maxEntries s).2.rows, r ∈ s.rows)
    ∧ (∀ r ∈ (Logger.trim maxEntries s).2.rows, ∀ d ∈ s.rows,
        d ∉ (Logger.trim maxEntries s).2.rows → d.timestamp ≤ r.timestamp)
    ∧ (maxEntries = 0 → (Logger.trim maxEntries s).2.rows = []) := by
  have hperm : List.Perm (List.insertionSort tsDescRel s.rows) s.rows :=
    List.perm_insertionSort tsDescRel s.rows
  have hsorted : List.Pairwise tsDescRel (List.insertionSort tsDescRel s.rows) :=
    List.sorted_insertionSort tsDescRel s.rows
  have hndL : ((List.insertionSort tsDescRel s.rows).map LogRow.id).Nodup :=
    (hperm.map LogRow.id).nodup_iff.mpr hnd
  have hndL' : (List.insertionSort tsDescRel s.rows).Nodup := hndL.of_map LogRow.id
  set L := List.insertionSort tsDescRel s.rows with hL
  set keep := L.take maxEntries with hkeep
  set keepIds := keep.map LogRow.id with hkeepIds
  set p : LogRow → Bool := fun r => keepIds.contains r.id with hp
  have hrem : (Logger.trim maxEntries s).2.rows = s.rows.filter p := rfl
  have hres1 : (Logger.trim maxEntries s).1
      = s.rows.length - (s.rows.filter p).length := rfl
  -- keep-membership characterisation
  have hmem : ∀ r ∈ s.rows, (p r = true ↔ r ∈ keep) := by
    intro r hr
    constructor
    · intro hpr
      have hid : r.id ∈ keepIds := (contains_iff_mem_str keepIds r.id).mp hpr
      rcases List.mem_map.mp hid with ⟨y, hy, hyid⟩
      have hyrows : y ∈ s.rows := hperm.mem_iff.mp (List.mem_of_mem_take hy)
      have : y = r := List.inj_on_of_nodup_map hnd hyrows hr hyid
      rwa [this] at hy
    · intro hkr
      exact (contains_iff_mem_str keepIds r.id).mpr (List.mem_map_of_mem LogRow.id hkr)
  have hsplit : keep ++ L.drop maxEntries = L := List.take_append_drop maxEntries L
  have hndsplit : (keep ++ L.drop maxEntries).Nodup := by rw [hsplit]; exact hndL'
  have hsortsplit : List.Pairwise tsDescRel (keep ++ L.drop maxEntries) := by
    rw [hsplit]; exact hsorted
  have hdisj : ∀ d ∈ L.drop maxEntries, d ∉ keep := by
    intro d hd hdk
    exact (List.nodup_append.mp hndsplit).2.2 hdk hd
  -- the retained rows, seen inside the sorted list
  have hLfilter : L.filter p = keep := by
    have h1 : keep.filter p = keep := by
      rw [List.filter_eq_self]
      intro a ha
      exact (hmem a (hperm.mem_iff.mp (List.mem_of_mem_take ha))).mpr ha
    have h2 : (L.drop maxEntries).filter p = [] := by
      rw [List.filter_eq_nil_iff]
      intro a ha hpa
      have haL : a ∈ L := hsplit ▸ List.mem_append_right keep ha
      have : a ∈ keep := (hmem a (hperm.mem_iff.mp haL)).mp hpa
      exact hdisj a ha this
    calc L.filter p = (keep ++ L.drop maxEntries).filter p := by rw [hsplit]
      _ = keep.filter p ++ (L.drop maxEntries).filter p := by rw [List.filter_append]
      _ = keep := by rw [h1, h2, List.append_nil]
  have hlen : (s.rows.filter p).length = min maxEntries s.rows.length := by
    have h3 : (s.rows.filter p).length = (L.filter p).length :=
      ((hperm.filter p).length_eq).symm
    rw [h3, hLfilter, hkeep, List.length_take, hperm.length_eq]
  refine ⟨?_, ?_, ?_, ?_, ?_⟩
  · rw [hres1, hlen]
  · rw [hrem, hlen]
  · intro r hr
    exact (List.mem_filter.mp (hrem ▸ hr)).1
  · intro r hr d hd hdnot
    rw [hrem] at hr
    rcases List.mem_filter.mp hr with ⟨hrs, hpr⟩
    have hrkeep : r ∈ keep := (hmem r hrs).mp hpr
    have hdnk : d ∉ keep := by
      intro hdk
      exact hdnot (by
        rw [hrem]
        exact List.mem_filter.mpr ⟨hd, (hmem d hd).mpr hdk⟩)
    have hdsplit : d ∈ keep ++ L.drop maxEntries := by
      rw [hsplit]
      exact hperm.mem_iff.mpr hd
    have hddrop : d ∈ L.drop maxEntries := by
      rcases List.mem_append.mp hdsplit with h | h
      · exact absurd h hdnk
      · exact h
    exact (List.pairwise_append.mp hsortsplit).2.2 r hrkeep d hddrop
  · intro h0
    rw [hrem, List.filter_eq_nil_iff]
    intro a ha hpa
    have : a ∈ keep := (hmem a ha).mp hpa
    rw [hkeep, h0, List.take_zero] at this
    cases this

def trimExampleState : LogState :=
  { rows := (List.range 10).map (fun i =>
      { id := toString i, timestamp := (i : Int), level := LogLevel.info,
        tool := none, action := none, arguments := none, result := none,
        error := none, duration := none, sessionId := none, projectId := none,
        serverId := none, metadata := none }) }

theorem trim_spec_witness :
    (Logger.trim 5 trimExampleState).1
        = trimExampleState.rows.length - min 5 trimExampleState.rows.length
    ∧ (Logger.trim 5 trimExampleState).2.rows.length
        = min 5 trimExampleState.rows.length :=
  ⟨(trim_spec 5 trimExampleState (by decide)).1,
   (trim_spec 5 trimExampleState (by decide)).2.1⟩

/-! ## Account registry (`src/accounts/AccountManager.ts`)

A row of the `sessions` table:
`sessions(id TEXT PRIMARY KEY, phone TEXT NOT NULL UNIQUE, user_id TEXT NOT NULL,
username TEXT, created_at INTEGER NOT NULL, last_active_at INTEGER NOT NULL,
is_active INTEGER NOT NULL DEFAULT 1)` — `is_active` is stored as an
integer. -/

inductive AccountStatus
  | active
  | inactive
  | pending_auth
  | error
deriving DecidableEq, Repr

structure SessionRow where
  id : String
  phone : String
  userId : String
  username : Option String
  createdAt : Int
  lastActiveAt : Int
  isActive : Int
deriving DecidableEq, Repr

/-- The `Session` read projection. -/
structure SessionView where
  id : String
  phone : String
  userId : String
  username : Option String
  createdAt : Int
  lastActiveAt : Int
  isActive : Bool
deriving DecidableEq, Repr

/-- The in-memory `Account` view. -/
structure Account where
  id : String
  phone : String
  status : AccountStatus
  session : Option SessionView
  createdAt : Int
  updatedAt : Int
deriving DecidableEq, Repr

namespace AccountManager

/-- Method `rowToAccount`: derives `status` from the stored flag
(`row.isActive ? "active" : "inactive"` — only ever `active`/`inactive`), and
attaches the session projection only when `userId` is truthy (non-empty). -/
def rowToAccount (r : SessionRow) : Account :=
  { id := r.id
    phone := r.phone
    status := if r.isActive != 0 then AccountStatus.active else AccountStatus.inactive
    session :=
      if r.userId != "" then
        some { id := r.id, phone := r.phone, userId := r.userId,
               username := r.username, createdAt := r.createdAt,
               lastActiveAt := r.lastActiveAt, isActive := r.isActive != 0 }
      else none
    createdAt := r.createdAt
    updatedAt := r.lastActiveAt }

/-- Method `createAccount(phone)`: inserts
`{id: uuid, phone, userId: "", username: null, createdAt: now, lastActiveAt: now, isActive: 0}`
and returns an in-memory `Account` stamped `pending_auth`.  The insert hits
the PRIMARY KEY / `phone UNIQUE` constraints, modelled as an error result. -/
def createAccount (phone freshId : String) (now : Int) (rows : List SessionRow) :
    Except String (Account × List SessionRow) :=
  if rows.any (fun r => r.id == freshId || r.phone == phone) then
    Except.error "UNIQUE constraint failed"
  else
    Except.ok
      ({ id := freshId, phone := phone, status := AccountStatus.pending_auth,
         session := none, createdAt := now, updatedAt := now },
       rows ++ [{ id := freshId, phone := phone, userId := "", username := none,
                  createdAt := now, lastActiveAt := now, isActive := 0 }])

/-- Method `getAccount(id)`: `SELECT ... WHERE id = ?` mapped through
`rowToAccount`. -/
def getAccount (id : String) (rows : List SessionRow) : Option Account :=
  (rows.find? (fun r => r.id == id)).map rowToAccount

/-- Method `deactivateSession(id)`: `UPDATE sessions SET is_active = 0 WHERE id = ?`
(both the raw and the Drizzle variant update only this column). -/
def deactivateSession (sid : String) (rows : List SessionRow) : List SessionRow :=
  rows.map (fun r => if r.id == sid then { r with isActive := 0 } else r)

end AccountManager

/-! ### C5: creation-time status vs. read-back status -/

/-- C5: `createAccount(phone)` inserts a row with `userId = ""`,
`isActive = 0` and `createdAt = lastActiveAt = now`, and returns an in-memory
`Account` with status `pending_auth` and no error; yet an immediately
following `getAccount` on the returned id derives status `inactive` from the
stored `isActive = 0` — the creation-time status never round-trips through a
read.  (The hypothesis is that the fresh uuid and the phone do not collide
with existing rows, i.e. the constraints of the insert hold.) -/
theorem createAccount_pending_then_inactive (phone freshId : String) (now : Int)
    (rows : List SessionRow)
    (h : rows.any (fun r => r.id == freshId || r.phone == phone) = false) :
    ∃ a rows',
      AccountManager.createAccount phone freshId now rows = Except.ok (a, rows')
      ∧ a.status = AccountStatus.pending_auth
      ∧ rows' = rows ++ [{ id := freshId, phone := phone, userId := "",
                           username := none, createdAt := now, lastActiveAt := now,
                           isActive := 0 }]
      ∧ (AccountManager.getAccount freshId rows').map Account.status
          = some AccountStatus.inactive := by
  have hok : AccountManager.createAccount phone freshId now rows
      = Except.ok
          ({ id := freshId, phone := phone, status := AccountStatus.pending_auth,
             session := none, createdAt := now, updatedAt := now },
           rows ++ [{ id := freshId, phone := phone, userId := "", username := none,
                      createdAt := now, lastActiveAt := now, isActive := 0 }]) := by
    unfold AccountManager.createAccount
    rw [if_neg (by simp [h])]
  refine ⟨_, _, hok, rfl, rfl, ?_⟩
  have hfind : (rows ++ [({ id := freshId, phone := phone, userId := "",
                            username := none, createdAt := now,
                            lastActiveAt := now,
                            isActive := 0 } : SessionRow)]).find?
        (fun r => r.id == freshId)
      = some { id := freshId, phone := phone, userId := "", username := none,
               createdAt := now, lastActiveAt := now, isActive := 0 } := by
    have hnone : rows.find? (fun r => r.id == freshId) = none := by
      rw [List.find?_eq_none]
      intro x hx hbeq
      have hfalse := List.any_eq_false.mp h x hx
      exact hfalse (by rw [hbeq, Bool.true_or])
    rw [List.find?_append, hnone]
    simp [List.find?]
  unfold AccountManager.getAccount
  rw [hfind]
  rfl

theorem createAccount_pending_then_inactive_witness :
    ∃ a rows',
      AccountManager.createAccount "+1234567890" "uuid-1" 42 [] = Except.ok (a, rows')
      ∧ a.status = AccountStatus.pending_auth
      ∧ rows' = [] ++ [{ id := "uuid-1", phone := "+1234567890", userId := "",
                         username := none, createdAt := 42, lastActiveAt := 42,
                         isActive := 0 }]
      ∧ (AccountManager.getAccount "uuid-1" rows').map Account.status
          = some AccountStatus.inactive :=
  createAccount_pending_then_inactive "+1234567890" "uuid-1" 42 [] (by decide)

/-! ### C9: `deactivateSession` frame property -/

/-- C9: `deactivateSession(id)` sets `isActive` to `0` on the matching
row and changes nothing else: the table keeps its length, every row keeps its
position, id, phone, userId, username, createdAt and in particular
lastActiveAt, and the `isActive` flag of non-matching rows is untouched. -/
theorem deactivateSession_frame (sid : String) (rows : List SessionRow) :
    (AccountManager.deactivateSession sid rows).length = rows.length
    ∧ ∀ i (hi : i < rows.length)
        (hi' : i < (AccountManager.deactivateSession sid rows).length),
        ((AccountManager.deactivateSession sid rows).get ⟨i, hi'⟩).id
            = (rows.get ⟨i, hi⟩).id
        ∧ ((AccountManager.deactivateSession sid rows).get ⟨i, hi'⟩).phone
            = (rows.get ⟨i, hi⟩).phone
        ∧ ((AccountManager.deactivateSession sid rows).get ⟨i, hi'⟩).userId
            = (rows.get ⟨i, hi⟩).userId
        ∧ ((AccountManager.deactivateSession sid rows).get ⟨i, hi'⟩).username
            = (rows.get ⟨i, hi⟩).username
        ∧ ((AccountManager.deactivateSession sid rows).get ⟨i, hi'⟩).createdAt
            = (rows.get ⟨i, hi⟩).createdAt
        ∧ ((AccountManager.deactivateSession sid rows).get ⟨i, hi'⟩).lastActiveAt
            = (rows.get ⟨i, hi⟩).lastActiveAt
        ∧ ((AccountManager.deactivateSession sid rows).get ⟨i, hi'⟩).isActive
            = (if (rows.get ⟨i, hi⟩).id = sid then 0 else (rows.get ⟨i, hi⟩).isActive) := by
  constructor
  · unfold AccountManager.deactivateSession
    exact List.length_map rows _
  · intro i hi hi'
    simp only [List.get_eq_getElem]
    have hget : (AccountManager.deactivateSession sid rows)[i]
        = (fun r => if r.id == sid then { r with isActive := 0 } else r) rows[i] := by
      unfold AccountManager.deactivateSession
      exact List.getElem_map _
    rw [hget]
    by_cases hc : rows[i].id = sid
    · simp [hc]
    · simp [hc]

def c9ExampleRows : List SessionRow :=
  [{ id := "a", phone := "+1", userId := "u", username := some "alice",
     createdAt := 1, lastActiveAt := 2, isActive := 1 },
   { id := "b", phone := "+2", userId := "v", username := none,
     createdAt := 3, lastActiveAt := 4, isActive := 1 }]

theorem deactivateSession_frame_witness :
    ((AccountManager.deactivateSession "a" c9ExampleRows).get
        ⟨0, by decide⟩).lastActiveAt
      = (c9ExampleRows.get ⟨0, by decide⟩).lastActiveAt :=
  ((deactivateSession_frame "a" c9ExampleRows).2 0 (by decide) (by decide)).2.2.2.2.2.1

/-! ### C1: the two `updateAccountStatus` implementations -/

/-- The columns of the `sessions` table, from the `CREATE TABLE` statement in
`src/core/database/index.ts` (the Drizzle schema declares the same seven
columns; neither defines `updated_at`). -/
def sessionsTableColumns : List String :=
  ["id", "phone", "user_id", "username", "created_at", "last_active_at", "is_active"]

/-- The columns assigned by the statement of the raw variant
`UPDATE sessions SET is_active = ?, updated_at = ? WHERE id = ?`. -/
def updateAccountStatusRawSetColumns : List String :=
  ["is_active", "updated_at"]

/-- An UPDATE statement prepares successfully only when every column it
assigns exists in the table. -/
def sqlUpdateColumnsOk (setCols tableCols : List String) : Bool :=
  setCols.all (fun c => tableCols.contains c)

namespace AccountManager

/-- The shared row transformation of `updateAccountStatus`:
`isActive = (status == "active") ? 1 : 0` on the matching row. -/
def setStatusRows (sid : String) (status : AccountStatus) (rows : List SessionRow) :
    List SessionRow :=
  rows.map (fun r => if r.id == sid then
    { r with isActive := if status = AccountStatus.active then 1 else 0 } else r)

/-- The raw-statement `updateAccountStatus(id, status, error?)`: prepares
`UPDATE sessions SET is_active = ?, updated_at = ? WHERE id = ?`.  Since the
`sessions` schema has no `updated_at` column, SQLite rejects the statement
(`no such column`), so the call throws and no row is updated. -/
def updateAccountStatusRaw (sid : String) (status : AccountStatus) (now : Int)
    (rows : List SessionRow) : Except String (List SessionRow) :=
  if sqlUpdateColumnsOk updateAccountStatusRawSetColumns sessionsTableColumns then
    Except.ok (setStatusRows sid status rows)
  else
    Except.error "no such column: updated_at"

/-- The Drizzle `updateAccountStatus(id, status, _error?)`: issues
`UPDATE sessions SET is_active = ? WHERE id = ?` (sets only `isActive`),
which always prepares. -/
def updateAccountStatusOrm (sid : String) (status : AccountStatus)
    (rows : List SessionRow) : List SessionRow :=
  setStatusRows sid status rows

end AccountManager

def c1Row : SessionRow :=
  { id := "s1", phone := "+1", userId := "u1", username := none,
    createdAt := 0, lastActiveAt := 0, isActive := 0 }

/-- C1: the two `updateAccountStatus` implementations do **not** agree:
for every id, status, time and table state, the raw variant fails (its UPDATE
names the column `updated_at`, which the `sessions` schema does not define,
so the statement does not prepare and nothing is updated), while the ORM
variant succeeds and sets only `isActive`; evaluated at the concrete failing
input `updateAccountStatus("s1", "active")` on a one-row table, the raw
variant errors with "no such column: updated_at" and the ORM variant returns
the table with `is_active` set to `1`. -/
theorem updateAccountStatus_raw_vs_orm :
    (∀ (sid : String) (status : AccountStatus) (now : Int) (rows : List SessionRow),
      AccountManager.updateAccountStatusRaw sid status now rows
        = Except.error "no such column: updated_at")
    ∧ ¬ ("updated_at" ∈ sessionsTableColumns)
    ∧ AccountManager.updateAccountStatusRaw "s1" AccountStatus.active 5 [c1Row]
        = Except.error "no such column: updated_at"
    ∧ AccountManager.updateAccountStatusOrm "s1" AccountStatus.active [c1Row]
        = [{ c1Row with isActive := 1 }] := by
  refine ⟨?_, by decide, by rfl, by rfl⟩
  intro sid status now rows
  unfold AccountManager.updateAccountStatusRaw
  rw [if_neg (by decide)]

end TelegramMcp
